import Mathlib

/-
  Verification development for the `github-local-actions` editor extension.

  Shallow embedding of the two source files:
    - src/act.ts                      (class Act: command construction, runCommand,
                                       install, platform tables)
    - src/views/decorationProvider.ts (DecorationProvider.provideFileDecoration and
                                       the related ConfigurationManager.initialize)

  JavaScript strings are modelled as Lean `String` (or `List Char` where we reason
  character by character), `undefined`/`null` as `Option`, and the observable side
  effects of `runCommand` (user messages, task registration, terminal writes,
  process spawn) as an explicit event trace.
-/

namespace GLA

/-! ## Data model -/

/-- A workflow: display name plus the file-system path of its YAML file
(`workflow.uri.fsPath` in the source). -/
structure Workflow where
  name : String
  fsPath : String
deriving DecidableEq

/-- A required external component (container runtime, act binary, ...); only its
name is observed by `runCommand`. -/
structure Component where
  name : String
deriving DecidableEq

/-- A resolved workspace folder (`workspace.getWorkspaceFolder` result). -/
structure WorkspaceFolder where
  fsPath : String
deriving DecidableEq

/-- Truthiness of a JavaScript string-or-undefined value: `undefined` and the
empty string are falsy, every other string is truthy. -/
def jsTruthy : Option String → Bool
  | none => false
  | some s => s ≠ ""

/-! ## Act.base and Option (src/act.ts lines 44-50) -/

/-- `Act.base`, the fixed base command token. -/
def actBase : String := "act"

/-- `Option.Workflows`, the flag selecting a specific workflow file. -/
def optionWorkflows : String := "-W"

/-- `Option.Variable` (unused by the modelled operations). -/
def optionVariable : String := "-var"

/-! ## node `path.parse(p).base`

`runWorkflow` takes the base name of the workflow file with node's
`path.parse(workflow.uri.fsPath).base`. For a POSIX path with no trailing
separator this is the maximal suffix containing no `/`; we model exactly that:
the characters after the last `/`. -/

/-- Base name of a POSIX path: the maximal suffix with no `/` character
(models `path.parse(p).base` for paths without a trailing separator). -/
def pathParseBase (p : String) : String :=
  String.mk ((p.data.reverse.takeWhile (fun c => c ≠ '/')).reverse)

/-! ## Command construction (Act.runWorkflow, line 123) -/

/-- The command string built by `Act.runWorkflow`:
`` `${Act.base} ${Option.Workflows} ".github/workflows/${path.parse(workflow.uri.fsPath).base}"` ``. -/
def runWorkflowCommand (workflow : Workflow) : String :=
  actBase ++ " " ++ optionWorkflows ++ " \".github/workflows/" ++
    pathParseBase workflow.fsPath ++ "\""

/-! ## runCommand as an event trace (Act.runCommand, lines 126-199) -/

/-- Observable steps of `Act.runCommand`, in program order. `showErrorMessage`
carries the message and the offered follow-up actions as (button label,
command executed when that button is chosen) pairs. -/
inductive Event where
  | queryReadiness
  | showErrorMessage (message : String) (actions : List (String × String))
  | resolveWorkspace (fsPath : String)
  | registerTask (name : String) (detail : String) (isBackground : Bool)
  | write (text : String)
  | spawn (command : String) (cwd : String) (shell : String)
deriving DecidableEq

/-- The header block written to the pseudo-terminal on open (lines 170-177);
the timestamp is runtime data and is passed in. -/
def headerWrites (workflow : Workflow) (command : String) (timestamp : String) :
    List Event :=
  [Event.write ("Workflow:    " ++ workflow.name ++ "\r\n"),
   Event.write ("Path:        " ++ workflow.fsPath ++ "\r\n"),
   Event.write ("Command:     " ++ command ++ "\r\n"),
   Event.write "Environments: OSSBUILD\r\n",
   Event.write "Variables:   VARIABLE1=ABC, VARIABLE2=DEF\r\n",
   Event.write "Secrets:     SECRET1=ABC, SECRET2=DEF\r\n",
   Event.write ("Timestamp:   " ++ timestamp ++ "\r\n"),
   Event.write "\r\n"]

/-- Event trace of `Act.runCommand`. Inputs are the environment the method
reads: the readiness-check result (`componentsManager.getUnreadyComponents()`),
the workspace resolution for the workflow's uri, and the user's shell
(`env.shell`). On success the registered task's pseudo-terminal writes the
header block on open and then spawns the child process in the resolved
working directory. -/
def runCommand (unready : List Component) (workspaceFolder : Option WorkspaceFolder)
    (workflow : Workflow) (command : String) (shell : String) (timestamp : String) :
    List Event :=
  Event.queryReadiness ::
    (if unready.length > 0 then
      [Event.showErrorMessage
        ("The following required components are not ready: " ++
          String.intercalate ", " (unready.map (fun component => component.name)))
        [("Fix...", "components.focus")]]
    else
      Event.resolveWorkspace workflow.fsPath ::
        (match workspaceFolder with
         | none => [Event.showErrorMessage "Failed to detect workspace folder" []]
         | some ws =>
            Event.registerTask workflow.name "Run workflow" true ::
              (headerWrites workflow command timestamp ++
                [Event.spawn command ws.fsPath shell])))

/-- `Act.runWorkflow`: builds the command string and delegates to `runCommand`. -/
def runWorkflow (unready : List Component) (workspaceFolder : Option WorkspaceFolder)
    (workflow : Workflow) (shell : String) (timestamp : String) : List Event :=
  runCommand unready workspaceFolder workflow (runWorkflowCommand workflow) shell timestamp

/-! ## Stream forwarding (stdout/stderr handlers, lines 180-188) -/

/-- JavaScript `String.prototype.replaceAll(needle, repl)` on character lists,
with fuel (structural recursion so proofs can evaluate it); at each position,
if the needle matches it is replaced and the scan resumes after the match,
otherwise one character is copied. `fuel` bounds the number of steps; the
callers always supply `fuel = s.length`, which is sufficient since every step
consumes at least one character of a nonempty needle or copies one character. -/
def replaceAllFuel (needle repl : List Char) : Nat → List Char → List Char
  | _, [] => []
  | 0, s => s
  | fuel + 1, c :: rest =>
      if needle ≠ [] ∧ needle.isPrefixOf (c :: rest) then
        repl ++ replaceAllFuel needle repl fuel (List.drop (needle.length - 1) rest)
      else
        c :: replaceAllFuel needle repl fuel rest

/-- `s.replaceAll(needle, repl)` for a nonempty needle. -/
def replaceAll (needle repl s : List Char) : List Char :=
  replaceAllFuel needle repl s.length s

/-- The stdout handler's transformation (line 181):
`data.toString().replaceAll('\n', '\r\n')`. -/
def stdoutForward (chunk : List Char) : List Char :=
  replaceAll ['\n'] ['\r', '\n'] chunk

/-- The stderr handler's transformation (line 186): the chunk is forwarded
unmodified. -/
def stderrForward (chunk : List Char) : List Char :=
  chunk

/-- Rewrite every newline character to a carriage-return+newline pair, all
other characters verbatim: the transformation `stdoutForward` actually
performs, stated character-by-character. -/
def rewriteEveryNewline : List Char → List Char
  | [] => []
  | c :: rest =>
      if c = '\n' then '\r' :: '\n' :: rewriteEveryNewline rest
      else c :: rewriteEveryNewline rest

/-- Rewrite every *bare* newline (a `'\n'` not preceded by `'\r'`) to a
carriage-return+newline pair, leaving existing `"\r\n"` pairs and all other
characters verbatim. This follows the spec's words, for comparison with the
source's `stdoutForward`. -/
def rewriteBareNewlines : List Char → List Char
  | [] => []
  | '\r' :: '\n' :: rest => '\r' :: '\n' :: rewriteBareNewlines rest
  | '\n' :: rest => '\r' :: '\n' :: rewriteBareNewlines rest
  | c :: rest => c :: rewriteBareNewlines rest

/-! ## Close handler (line 191) -/

/-- Value fired on the close emitter: `code || 0` where `code` is the child's
exit code or `null`; `0` and `null` are falsy, every other number is truthy. -/
def closeFired (code : Option Int) : Int :=
  match code with
  | none => 0
  | some n => if n = 0 then 0 else n

/-! ## Constructor tables (Act.constructor, lines 57-112)

`process.platform` is a string; the constructor switches on it and fills two
object literals, modelled as association lists in source order. -/

/-- `this.installationCommands`, as populated by the constructor for the given
`process.platform` value. -/
def installationCommands (platform : String) : List (String × String) :=
  if platform = "win32" then
    [("Chocolatey", "choco install act-cli"),
     ("Winget", "winget install nektos.act"),
     ("Scoop", "scoop install act"),
     ("GitHub CLI", "gh extension install https://github.com/nektos/gh-act")]
  else if platform = "darwin" then
    [("Homebrew", "brew install act"),
     ("Nix", "nix run nixpkgs#act"),
     ("MacPorts", "sudo port install act"),
     ("GitHub CLI", "gh extension install https://github.com/nektos/gh-act")]
  else if platform = "linux" then
    [("Homebrew", "brew install act"),
     ("Nix", "nix run nixpkgs#act"),
     ("AUR", "yay -Syu act"),
     ("COPR", "dnf copr enable goncalossilva/act && dnf install act-cli"),
     ("GitHub CLI", "gh extension install https://github.com/nektos/gh-act")]
  else
    []

/-- `this.prebuiltExecutables`, as populated by the constructor for the given
`process.platform` value. -/
def prebuiltExecutables (platform : String) : List (String × String) :=
  if platform = "win32" then
    [("Windows 64-bit (arm64/aarch64)", "https://github.com/nektos/act/releases/latest/download/act_Windows_arm64.zip"),
     ("Windows 64-bit (amd64/x86_64)", "https://github.com/nektos/act/releases/latest/download/act_Windows_x86_64.zip"),
     ("Windows 32-bit (armv7)", "https://github.com/nektos/act/releases/latest/download/act_Windows_armv7.zip"),
     ("Windows 32-bit (i386/x86)", "https://github.com/nektos/act/releases/latest/download/act_Windows_i386.zip")]
  else if platform = "darwin" then
    [("macOS 64-bit (Apple Silicon)", "https://github.com/nektos/act/releases/latest/download/act_Darwin_arm64.tar.gz"),
     ("macOS 64-bit (Intel)", "https://github.com/nektos/act/releases/latest/download/act_Darwin_x86_64.tar.gz")]
  else if platform = "linux" then
    [("Linux 64-bit (arm64/aarch64)", "https://github.com/nektos/act/releases/latest/download/act_Linux_arm64.tar.gz"),
     ("Linux 64-bit (amd64/x86_64)", "https://github.com/nektos/act/releases/latest/download/act_Linux_x86_64.tar.gz"),
     ("Linux 32-bit (armv7)", "https://github.com/nektos/act/releases/latest/download/act_Linux_armv7.tar.gz"),
     ("Linux 32-bit (armv6)", "https://github.com/nektos/act/releases/latest/download/act_Linux_armv6.tar.gz"),
     ("Linux 32-bit (i386/x86)", "https://github.com/nektos/act/releases/latest/download/act_Linux_i386.tar.gz")]
  else
    []

/-! ## install (Act.install, lines 201-226) -/

/-- The task `Act.install` registers when a command is found: a shared-panel
task whose execution is the host's built-in `ShellExecution` of the command
(no custom output relaying). -/
structure InstallTask where
  name : String
  detail : String
  panel : String
  shellExecutionCommand : String
deriving DecidableEq

/-- `Act.install`: looks the package-manager name up in the platform's
installation table (`this.installationCommands[packageManager]`, modelled as
first-match association-list lookup); if the result is truthy it registers the
shell-execution task, otherwise it does nothing. -/
def install (platform : String) (packageManager : String) : Option InstallTask :=
  match (installationCommands platform).lookup packageManager with
  | some command =>
      if command ≠ "" then
        some ⟨"nektos/act", "Install nektos/act", "Shared", command⟩
      else
        none
  | none => none

end GLA

namespace GLA.ConfigurationManager

/-! ## ConfigurationManager.initialize

From the file related to src/views/decorationProvider.ts. `initialize` reads
the `dockerDesktopPath` and `actCommand` settings (string or undefined) and
conditionally writes defaults; we model it as the list of (section, value)
setting writes it performs, in order. `Act.defaultActCommand` is defined in a
file not part of this embedding, so its value is passed in as `defaultAct`. -/

/-- Setting writes performed by `ConfigurationManager.initialize`, given the
platform and the current values of the two settings (`none` when unset). In
the default platform branch the function returns early, before the
`actCommand` check. -/
def initializeWrites (platform : String) (dockerDesktopPath actCommand : Option String)
    (defaultAct : String) : List (String × String) :=
  let actPart : List (String × String) :=
    if jsTruthy actCommand then [] else [("actCommand", defaultAct)]
  if jsTruthy dockerDesktopPath then
    actPart
  else
    match platform with
    | "win32" =>
        ("dockerDesktopPath", "C:/Program Files/Docker/Docker/Docker Desktop.exe") :: actPart
    | "darwin" =>
        ("dockerDesktopPath", "/Applications/Docker.app") :: actPart
    | _ => []

end GLA.ConfigurationManager

namespace GLA

/-! ## DecorationProvider.provideFileDecoration (src/views/decorationProvider.ts lines 8-37) -/

/-- A file decoration: badge text and theme-color id. -/
structure FileDecoration where
  badge : String
  color : String
deriving DecidableEq

/-- Modelled from the spec: the component readiness statuses are "a small
fixed set (Enabled, Warning, Disabled)" (`Status` lives in componentManager,
which is not among the embedded files); we represent them by their names as
distinct strings. -/
def statusEnabled : String := "Enabled"

/-- Modelled from the spec: see `statusEnabled`. -/
def statusWarning : String := "Warning"

/-- Modelled from the spec: see `statusEnabled`. -/
def statusDisabled : String := "Disabled"

/-- Modelled from the spec: the uri scheme of component tree items
(`ComponentTreeItem.contextValue`, defined in a file not embedded here). -/
def componentContextValue : String := "component"

/-- Modelled from the spec: the uri scheme of workflow tree items
(`WorkflowTreeItem.contextValue`, defined in a file not embedded here). -/
def workflowContextValue : String := "workflow"

/-- `URLSearchParams.get`: the value of the first parameter with the given
name, or null. The uri's query string is modelled as its parsed parameter
list. -/
def paramsGet (params : List (String × String)) (key : String) : Option String :=
  params.lookup key

/-- `DecorationProvider.provideFileDecoration`, on a uri given by its scheme
and parsed query parameters. -/
def provideFileDecoration (scheme : String) (query : List (String × String)) :
    Option FileDecoration :=
  let params := query
  if scheme = componentContextValue then
    if paramsGet params "status" = some statusEnabled then
      some ⟨"✅", "GitHubLocalActions.green"⟩
    else if paramsGet params "status" = some statusWarning then
      some ⟨"⚠️", "GitHubLocalActions.yellow"⟩
    else if paramsGet params "status" = some statusDisabled then
      some ⟨"❌", "GitHubLocalActions.red"⟩
    else
      none
  else if scheme = workflowContextValue then
    if jsTruthy (paramsGet params "error") then
      some ⟨"❌", "GitHubLocalActions.red"⟩
    else
      none
  else
    none

end GLA

namespace GLA

/-! # Helper lemmas -/

/-- Helper: the base name of `dir ++ "/" ++ name` is `name` when `name`
contains no separator. -/
theorem pathParseBase_append (dir name : String)
    (h : ∀ c ∈ name.data, c ≠ '/') :
    pathParseBase (dir ++ "/" ++ name) = name := by
  unfold pathParseBase
  have hdata : (dir ++ "/" ++ name).data = dir.data ++ '/' :: name.data := by
    simp [String.data_append]
  rw [hdata]
  have hrev : (dir.data ++ '/' :: name.data).reverse =
      name.data.reverse ++ '/' :: dir.data.reverse := by
    simp
  rw [hrev]
  have htake : (name.data.reverse ++ '/' :: dir.data.reverse).takeWhile
      (fun c => c ≠ '/') = name.data.reverse := by
    rw [List.takeWhile_append_of_pos ?_]
    · rw [List.takeWhile_cons_of_neg ?_]
      · simp
      · simp
    · intro a ha
      simp only [ne_eq, decide_not, Bool.not_eq_true', decide_eq_false_iff_not]
      exact h a (List.mem_reverse.mp ha)
  rw [htake]
  simp

/-- Helper: with fuel at least the length of the input, replacing the
single-character needle `'\n'` by `"\r\n"` is exactly the
character-by-character rewriting of every newline. -/
theorem replaceAllFuel_newline (fuel : Nat) (s : List Char) (h : s.length ≤ fuel) :
    replaceAllFuel ['\n'] ['\r', '\n'] fuel s = rewriteEveryNewline s := by
  induction fuel generalizing s with
  | zero =>
      cases s with
      | nil => rfl
      | cons c rest => simp at h
  | succ n ih =>
      cases s with
      | nil => rfl
      | cons c rest =>
          by_cases hc : c = '\n'
          · subst hc
            have hpre : (['\n'] : List Char).isPrefixOf ('\n' :: rest) = true := by
              simp [List.isPrefixOf]
            unfold replaceAllFuel
            rw [if_pos ⟨by simp, hpre⟩]
            rw [rewriteEveryNewline]
            rw [if_pos rfl]
            simp only [List.length_cons, List.length_nil, Nat.zero_add,
              Nat.sub_self, List.drop_zero, List.cons_append, List.nil_append]
            rw [ih rest (by simp at h; omega)]
          · have hpre : (['\n'] : List Char).isPrefixOf (c :: rest) = false := by
              simp [List.isPrefixOf]
              intro he
              exact absurd he.symm hc
            unfold replaceAllFuel
            rw [if_neg (by simp [hpre])]
            rw [rewriteEveryNewline]
            rw [if_neg hc]
            rw [ih rest (by simp at h; omega)]

/-- Helper: a successful association-list lookup returns one of the stored
values. -/
theorem lookup_mem_snd {l : List (String × String)} {k v : String}
    (h : l.lookup k = some v) : v ∈ l.map Prod.snd := by
  induction l with
  | nil => simp [List.lookup] at h
  | cons p rest ih =>
      obtain ⟨a, b⟩ := p
      rw [List.lookup] at h
      by_cases hk : (k == a) = true
      · rw [hk] at h
        simp only [Option.some.injEq] at h
        subst h
        simp
      · rw [Bool.not_eq_true] at hk
        rw [hk] at h
        simp only at h
        simp [ih h]

/-- Helper: every command stored in an installation table is a nonempty
string. -/
theorem installationCommands_values_nonempty (platform : String) :
    ∀ v ∈ (installationCommands platform).map Prod.snd, v ≠ "" := by
  unfold installationCommands
  by_cases h1 : platform = "win32"
  · rw [if_pos h1]; decide
  · rw [if_neg h1]
    by_cases h2 : platform = "darwin"
    · rw [if_pos h2]; decide
    · rw [if_neg h2]
      by_cases h3 : platform = "linux"
      · rw [if_pos h3]; decide
      · rw [if_neg h3]; decide

end GLA

namespace GLA

/-! # Claim theorems -/

/-- Claim C1: for every readiness-check result containing at least one unready
component, `runCommand` does not spawn a subprocess and does not register a
task, and it reports to the user exactly the names of those unready components
joined with `", "`, offering a "Fix..." follow-up that runs the
`components.focus` command. -/
theorem runCommand_unready_aborts (unready : List Component)
    (workspaceFolder : Option WorkspaceFolder) (workflow : Workflow)
    (command shell timestamp : String) (h : unready ≠ []) :
    runCommand unready workspaceFolder workflow command shell timestamp =
      [Event.queryReadiness,
       Event.showErrorMessage
         ("The following required components are not ready: " ++
           String.intercalate ", " (unready.map (fun component => component.name)))
         [("Fix...", "components.focus")]] ∧
    (∀ c cwd sh, Event.spawn c cwd sh ∉
      runCommand unready workspaceFolder workflow command shell timestamp) ∧
    (∀ n d b, Event.registerTask n d b ∉
      runCommand unready workspaceFolder workflow command shell timestamp) := by
  have hp : unready.length > 0 := List.length_pos.mpr h
  have heq : runCommand unready workspaceFolder workflow command shell timestamp =
      [Event.queryReadiness,
       Event.showErrorMessage
         ("The following required components are not ready: " ++
           String.intercalate ", " (unready.map (fun component => component.name)))
         [("Fix...", "components.focus")]] := by
    unfold runCommand
    rw [if_pos hp]
  refine ⟨heq, ?_, ?_⟩
  · intro c cwd sh hmem
    rw [heq] at hmem
    simp at hmem
  · intro n d b hmem
    rw [heq] at hmem
    simp at hmem

/-- Witness for C1 at a concrete unready component. -/
theorem runCommand_unready_aborts_witness :
    runCommand [⟨"Docker"⟩] none ⟨"CI", "/repo/.github/workflows/ci.yml"⟩
        "act" "bash" "12:00" =
      [Event.queryReadiness,
       Event.showErrorMessage
         "The following required components are not ready: Docker"
         [("Fix...", "components.focus")]] :=
  (runCommand_unready_aborts [⟨"Docker"⟩] none
    ⟨"CI", "/repo/.github/workflows/ci.yml"⟩ "act" "bash" "12:00" (by decide)).1

/-- Claim C2: for a workflow named `W` whose file path is `W.yml` under some
directory, `runWorkflow` constructs exactly the command string
`act -W ".github/workflows/W.yml"`. -/
theorem runWorkflow_command_string (workflow : Workflow) (w dir : String)
    (hname : workflow.name = w)
    (hpath : workflow.fsPath = dir ++ "/" ++ (w ++ ".yml"))
    (hw : ∀ c ∈ w.data, c ≠ '/') :
    runWorkflowCommand workflow =
      "act -W \".github/workflows/" ++ w ++ ".yml\"" := by
  have hyml : ∀ c ∈ (w ++ ".yml").data, c ≠ '/' := by
    intro c hc
    rw [String.data_append] at hc
    rcases List.mem_append.mp hc with h1 | h2
    · exact hw c h1
    · intro he
      subst he
      simp at h2
  unfold runWorkflowCommand
  rw [hpath, pathParseBase_append _ _ hyml]
  apply String.ext
  simp [String.data_append, actBase, optionWorkflows]

/-- Witness for C2 at the workflow `build` in `.github/workflows/build.yml`. -/
theorem runWorkflow_command_string_witness :
    runWorkflowCommand ⟨"build", "/repo/.github/workflows/build.yml"⟩ =
      "act -W \".github/workflows/build.yml\"" :=
  runWorkflow_command_string ⟨"build", "/repo/.github/workflows/build.yml"⟩
    "build" "/repo/.github/workflows" rfl (by decide) (by decide)

/-- Claim C3 (amended): every stdout chunk is forwarded with *every* newline
character — including one already preceded by a carriage return — rewritten to
a carriage-return+newline pair and is otherwise verbatim; every stderr chunk
is forwarded unmodified. -/
theorem stdout_stderr_forwarding (chunk : List Char) :
    stdoutForward chunk = rewriteEveryNewline chunk ∧ stderrForward chunk = chunk := by
  constructor
  · exact replaceAllFuel_newline chunk.length chunk (Nat.le_refl _)
  · rfl

/-- Counterexample to C3 as stated: on the stdout chunk `"\r\n"`, which
contains no bare newline, the forwarded text is `"\r\r\n"`, not the chunk with
only bare newlines rewritten (which would be `"\r\n"` itself). -/
theorem stdout_bare_newline_counterexample :
    stdoutForward ['\r', '\n'] ≠ rewriteBareNewlines ['\r', '\n'] := by decide

/-- Claim C4: for every integer exit code `N` the close signal fires with
value `N`, and when the exit code is undefined it fires with `0`. -/
theorem closeFired_spec (n : Int) :
    closeFired (some n) = n ∧ closeFired none = 0 := by
  constructor
  · simp only [closeFired]
    by_cases h : n = 0
    · rw [if_pos h, h]
    · rw [if_neg h]
  · rfl

/-- Claim C5: when every component is ready but workspace resolution fails,
`runCommand` shows the "Failed to detect workspace folder" error and returns
without spawning a subprocess or registering a task. -/
theorem runCommand_no_workspace_aborts (unready : List Component)
    (workflow : Workflow) (command shell timestamp : String)
    (h1 : unready = []) :
    runCommand unready none workflow command shell timestamp =
      [Event.queryReadiness, Event.resolveWorkspace workflow.fsPath,
       Event.showErrorMessage "Failed to detect workspace folder" []] ∧
    (∀ c cwd sh, Event.spawn c cwd sh ∉
      runCommand unready none workflow command shell timestamp) ∧
    (∀ n d b, Event.registerTask n d b ∉
      runCommand unready none workflow command shell timestamp) := by
  subst h1
  have heq : runCommand [] none workflow command shell timestamp =
      [Event.queryReadiness, Event.resolveWorkspace workflow.fsPath,
       Event.showErrorMessage "Failed to detect workspace folder" []] := by
    unfold runCommand
    simp
  refine ⟨heq, ?_, ?_⟩
  · intro c cwd sh hmem
    rw [heq] at hmem
    simp at hmem
  · intro n d b hmem
    rw [heq] at hmem
    simp at hmem

/-- Witness for C5 at a concrete workflow outside every workspace folder. -/
theorem runCommand_no_workspace_aborts_witness :
    runCommand [] none ⟨"CI", "/tmp/ci.yml"⟩ "act" "bash" "12:00" =
      [Event.queryReadiness, Event.resolveWorkspace "/tmp/ci.yml",
       Event.showErrorMessage "Failed to detect workspace folder" []] :=
  (runCommand_no_workspace_aborts [] ⟨"CI", "/tmp/ci.yml"⟩ "act" "bash" "12:00" rfl).1

/-- Claim C6: a spawn event can occur only when the readiness check returned
no unready component and workspace resolution succeeded, and in that case the
trace is exactly: readiness query first, then workspace resolution, then task
registration, then the whole header block, and the spawn — in the resolved
working directory with the user's shell — last. -/
theorem runCommand_spawn_order (unready : List Component)
    (workspaceFolder : Option WorkspaceFolder) (workflow : Workflow)
    (command shell timestamp c cwd csh : String)
    (h : Event.spawn c cwd csh ∈
      runCommand unready workspaceFolder workflow command shell timestamp) :
    unready = [] ∧ ∃ w, workspaceFolder = some w ∧
      c = command ∧ cwd = w.fsPath ∧ csh = shell ∧
      runCommand unready workspaceFolder workflow command shell timestamp =
        Event.queryReadiness :: Event.resolveWorkspace workflow.fsPath ::
          Event.registerTask workflow.name "Run workflow" true ::
            (headerWrites workflow command timestamp ++
              [Event.spawn command w.fsPath shell]) := by
  by_cases hu : unready.length > 0
  · exfalso
    unfold runCommand at h
    rw [if_pos hu] at h
    simp at h
  · have hnil : unready = [] := by
      cases unready with
      | nil => rfl
      | cons a t => simp at hu
    subst hnil
    cases workspaceFolder with
    | none =>
        exfalso
        unfold runCommand at h
        simp at h
    | some w =>
        have heq : runCommand [] (some w) workflow command shell timestamp =
            Event.queryReadiness :: Event.resolveWorkspace workflow.fsPath ::
              Event.registerTask workflow.name "Run workflow" true ::
                (headerWrites workflow command timestamp ++
                  [Event.spawn command w.fsPath shell]) := by
          unfold runCommand
          simp
        rw [heq] at h
        simp [headerWrites] at h
        obtain ⟨hc, hcwd, hcsh⟩ := h
        exact ⟨rfl, w, rfl, hc, hcwd, hcsh, heq⟩

/-- Witness for C6 at a concrete successful run. -/
theorem runCommand_spawn_order_witness :
    runCommand [] (some ⟨"/repo"⟩) ⟨"CI", "/repo/ci.yml"⟩ "act" "bash" "12:00" =
      Event.queryReadiness :: Event.resolveWorkspace "/repo/ci.yml" ::
        Event.registerTask "CI" "Run workflow" true ::
          (headerWrites ⟨"CI", "/repo/ci.yml"⟩ "act" "12:00" ++
            [Event.spawn "act" "/repo" "bash"]) := by
  obtain ⟨-, w, hw, -, -, -, heq⟩ :=
    runCommand_spawn_order [] (some ⟨"/repo"⟩) ⟨"CI", "/repo/ci.yml"⟩
      "act" "bash" "12:00" "act" "/repo" "bash" (by decide)
  cases hw
  exact heq

/-- Claim C7: if the package-manager name maps to a command in the platform's
installation table, `install` registers that command as a shell-execution
task; if the name is not in the table, `install` performs no action. -/
theorem install_spec (platform packageManager : String) :
    (∀ command,
      (installationCommands platform).lookup packageManager = some command →
      install platform packageManager =
        some ⟨"nektos/act", "Install nektos/act", "Shared", command⟩) ∧
    ((installationCommands platform).lookup packageManager = none →
      install platform packageManager = none) := by
  constructor
  · intro command h
    have hne : command ≠ "" :=
      installationCommands_values_nonempty platform command (lookup_mem_snd h)
    unfold install
    rw [h]
    simp [hne]
  · intro h
    unfold install
    rw [h]

/-- Witness for C7: a found and a missing package manager. -/
theorem install_spec_witness :
    install "linux" "AUR" =
      some ⟨"nektos/act", "Install nektos/act", "Shared", "yay -Syu act"⟩ ∧
    install "win32" "Homebrew" = none :=
  ⟨(install_spec "linux" "AUR").1 "yay -Syu act" (by decide),
   (install_spec "win32" "Homebrew").2 (by decide)⟩

/-- Claim C8: the installation-command table is a fixed mapping selected by
the host operating system — one table each for Windows, macOS and Linux — and
is empty for every other platform. -/
theorem installationCommands_tables :
    installationCommands "win32" =
      [("Chocolatey", "choco install act-cli"),
       ("Winget", "winget install nektos.act"),
       ("Scoop", "scoop install act"),
       ("GitHub CLI", "gh extension install https://github.com/nektos/gh-act")] ∧
    installationCommands "darwin" =
      [("Homebrew", "brew install act"),
       ("Nix", "nix run nixpkgs#act"),
       ("MacPorts", "sudo port install act"),
       ("GitHub CLI", "gh extension install https://github.com/nektos/gh-act")] ∧
    installationCommands "linux" =
      [("Homebrew", "brew install act"),
       ("Nix", "nix run nixpkgs#act"),
       ("AUR", "yay -Syu act"),
       ("COPR", "dnf copr enable goncalossilva/act && dnf install act-cli"),
       ("GitHub CLI", "gh extension install https://github.com/nektos/gh-act")] ∧
    ∀ platform, platform ≠ "win32" → platform ≠ "darwin" → platform ≠ "linux" →
      installationCommands platform = [] := by
  refine ⟨by decide, by decide, by decide, ?_⟩
  intro platform h1 h2 h3
  unfold installationCommands
  rw [if_neg h1, if_neg h2, if_neg h3]

/-- Witness for C8 at an unrecognized platform. -/
theorem installationCommands_tables_witness :
    installationCommands "freebsd" = [] :=
  installationCommands_tables.2.2.2 "freebsd" (by decide) (by decide) (by decide)

/-- Claim C9: on every platform other than Windows and macOS, when the
`dockerDesktopPath` setting is unset, initialization returns early and writes
no setting at all — in particular `actCommand` is never written, whatever its
current value. -/
theorem initializeWrites_default_platform (platform : String)
    (actCommand : Option String) (defaultAct : String)
    (h1 : platform ≠ "win32") (h2 : platform ≠ "darwin") :
    ConfigurationManager.initializeWrites platform none actCommand defaultAct = [] ∧
    ∀ v, ("actCommand", v) ∉
      ConfigurationManager.initializeWrites platform none actCommand defaultAct := by
  have heq :
      ConfigurationManager.initializeWrites platform none actCommand defaultAct = [] := by
    unfold ConfigurationManager.initializeWrites
    rw [show jsTruthy none = false from rfl]
    rw [if_neg (by simp)]
    split
    next => exact absurd rfl h1
    next => exact absurd rfl h2
    next => rfl
  exact ⟨heq, fun v hv => by rw [heq] at hv; simp at hv⟩

/-- Witness for C9 on Linux with both settings unset. -/
theorem initializeWrites_default_platform_witness :
    ConfigurationManager.initializeWrites "linux" none none "act" = [] :=
  (initializeWrites_default_platform "linux" none "act" (by decide) (by decide)).1

/-- Claim C10: `provideFileDecoration` returns a decoration exactly in these
cases: on a component-scheme uri with `status` exactly Enabled, Warning or
Disabled it returns the corresponding badge and theme color; on a
workflow-scheme uri it returns the error badge precisely when the `error`
parameter is present with a nonempty value; in every other case it returns
nothing. -/
theorem provideFileDecoration_spec (scheme : String)
    (query : List (String × String)) :
    (scheme = componentContextValue →
      (paramsGet query "status" = some statusEnabled →
        provideFileDecoration scheme query = some ⟨"✅", "GitHubLocalActions.green"⟩) ∧
      (paramsGet query "status" = some statusWarning →
        provideFileDecoration scheme query = some ⟨"⚠️", "GitHubLocalActions.yellow"⟩) ∧
      (paramsGet query "status" = some statusDisabled →
        provideFileDecoration scheme query = some ⟨"❌", "GitHubLocalActions.red"⟩) ∧
      (paramsGet query "status" ≠ some statusEnabled →
       paramsGet query "status" ≠ some statusWarning →
       paramsGet query "status" ≠ some statusDisabled →
        provideFileDecoration scheme query = none)) ∧
    (scheme = workflowContextValue →
      ((∃ v, paramsGet query "error" = some v ∧ v ≠ "") →
        provideFileDecoration scheme query = some ⟨"❌", "GitHubLocalActions.red"⟩) ∧
      (¬ (∃ v, paramsGet query "error" = some v ∧ v ≠ "") →
        provideFileDecoration scheme query = none)) ∧
    (scheme ≠ componentContextValue → scheme ≠ workflowContextValue →
      provideFileDecoration scheme query = none) := by
  refine ⟨?_, ?_, ?_⟩
  · intro hs
    subst hs
    refine ⟨?_, ?_, ?_, ?_⟩
    · intro h
      unfold provideFileDecoration
      rw [if_pos rfl, if_pos h]
    · intro h
      unfold provideFileDecoration
      rw [if_pos rfl]
      rw [if_neg (by rw [h]; decide), if_pos h]
    · intro h
      unfold provideFileDecoration
      rw [if_pos rfl]
      rw [if_neg (by rw [h]; decide), if_neg (by rw [h]; decide), if_pos h]
    · intro h1 h2 h3
      unfold provideFileDecoration
      rw [if_pos rfl, if_neg h1, if_neg h2, if_neg h3]
  · intro hs
    subst hs
    have hne : workflowContextValue ≠ componentContextValue := by decide
    constructor
    · rintro ⟨v, hv, hvne⟩
      unfold provideFileDecoration
      rw [if_neg hne, if_pos rfl]
      rw [if_pos (by rw [hv]; simp [jsTruthy, hvne])]
    · intro h
      unfold provideFileDecoration
      rw [if_neg hne, if_pos rfl]
      rw [if_neg ?_]
      cases he : paramsGet query "error" with
      | none => simp [jsTruthy]
      | some v =>
          simp [jsTruthy]
          by_contra hvne
          exact h ⟨v, he, hvne⟩
  · intro h1 h2
    unfold provideFileDecoration
    rw [if_neg h1, if_neg h2]

/-- Witness for C10: an enabled component uri gets the green check badge. -/
theorem provideFileDecoration_spec_witness :
    provideFileDecoration "component" [("status", "Enabled")] =
      some ⟨"✅", "GitHubLocalActions.green"⟩ :=
  ((provideFileDecoration_spec "component" [("status", "Enabled")]).1 rfl).1 rfl

end GLA
